import Mathlib

/-!
Shallow embedding of the key-space codec of a region-partitioned key-value
store (`src/raftstore/store/keys.rs`).

Keys are byte strings, modelled as `List Nat` whose elements are byte
values; the store compares keys by unsigned lexicographic order, modelled
as `List.Lex (· < ·)`.  Eight-byte big-endian writes of `u64` values are
modelled by `u64_be`; fallible decode operations return `Option`
(`none` embeds the `InvalidKey` error), and the `assert!`-guarded
operations return `Option` (`none` embeds the abort).
-/

namespace Keys

/-- Big-endian byte expansion: `be_bytes k n` is the `k`-byte big-endian
encoding of `n` (most significant byte first). -/
def be_bytes : Nat → Nat → List Nat
  | 0, _ => []
  | k + 1, n => n / 256 ^ k :: be_bytes k (n % 256 ^ k)

/-- `write_u64::<BigEndian>`: the 8-byte big-endian encoding of a `u64`. -/
def u64_be (n : Nat) : List Nat := be_bytes 8 (n % 2 ^ 64)

/-- `BigEndian::read_u64`: read a big-endian number from a byte list. -/
def read_u64_be (l : List Nat) : Nat := l.foldl (fun acc b => acc * 256 + b) 0

/-- Unsigned lexicographic byte order, the store's native iteration order. -/
def keyLt (a b : List Nat) : Prop := List.Lex (· < ·) a b

instance : DecidableRel keyLt := fun a b =>
  inferInstanceAs (Decidable (List.Lex (· < ·) a b))

-- Namespace constants from `keys.rs`.
def LOCAL_PREFIX_BYTE : Nat := 0x01
def DATA_PREFIX_BYTE : Nat := 0x7A  -- b'z'
def REGION_RAFT_PREFIX_BYTE : Nat := 0x02
def REGION_META_PREFIX_BYTE : Nat := 0x03

def MIN_KEY : List Nat := []
def MAX_KEY : List Nat := [0xFF]
def LOCAL_MIN_KEY : List Nat := [LOCAL_PREFIX_BYTE]
def LOCAL_MAX_KEY : List Nat := [LOCAL_PREFIX_BYTE + 1]
def DATA_PREFIX_KEY : List Nat := [DATA_PREFIX_BYTE]
def DATA_MIN_KEY : List Nat := [DATA_PREFIX_BYTE]
def DATA_MAX_KEY : List Nat := [DATA_PREFIX_BYTE + 1]
def STORE_IDENT_KEY : List Nat := [LOCAL_PREFIX_BYTE, 0x01]
def REGION_RAFT_PREFIX_KEY : List Nat := [LOCAL_PREFIX_BYTE, REGION_RAFT_PREFIX_BYTE]
def REGION_META_PREFIX_KEY : List Nat := [LOCAL_PREFIX_BYTE, REGION_META_PREFIX_BYTE]

def RAFT_LOG_SUFFIX : Nat := 0x01
def RAFT_STATE_SUFFIX : Nat := 0x02
def APPLY_STATE_SUFFIX : Nat := 0x03
def REGION_STATE_SUFFIX : Nat := 0x01

/-- `store_ident_key()`. -/
def store_ident_key : List Nat := STORE_IDENT_KEY

/-- `make_region_id_key(region_id, suffix, extra_cap)` (capacity hint dropped). -/
def make_region_id_key (region_id sfx : Nat) : List Nat :=
  REGION_RAFT_PREFIX_KEY ++ u64_be region_id ++ [sfx]

/-- `region_raft_prefix(region_id)`. -/
def region_raft_prefix_key (region_id : Nat) : List Nat :=
  REGION_RAFT_PREFIX_KEY ++ u64_be region_id

/-- `raft_log_key(region_id, log_index)`. -/
def raft_log_key (region_id log_index : Nat) : List Nat :=
  make_region_id_key region_id RAFT_LOG_SUFFIX ++ u64_be log_index

/-- `raft_state_key(region_id)`. -/
def raft_state_key (region_id : Nat) : List Nat :=
  make_region_id_key region_id RAFT_STATE_SUFFIX

/-- `apply_state_key(region_id)`. -/
def apply_state_key (region_id : Nat) : List Nat :=
  make_region_id_key region_id APPLY_STATE_SUFFIX

/-- `raft_log_prefix(region_id)`. -/
def raft_log_prefix_key (region_id : Nat) : List Nat :=
  make_region_id_key region_id RAFT_LOG_SUFFIX

/-- `raft_log_index(key)`: checks only that the key has the expected
length (2 + 8 + 1 + 8 = 19) and reads the final 8 bytes big-endian. -/
def raft_log_index (key : List Nat) : Option Nat :=
  if key.length = 19 then some (read_u64_be (key.drop 11)) else none

/-- `decode_raft_log_key(key)`: checks exact length, the RegionRaft
prefix on the first two bytes, and the RaftLog suffix at offset 10, then
reads region id (bytes 2..10) and log index (bytes 11..19) big-endian. -/
def decode_raft_log_key (key : List Nat) : Option (Nat × Nat) :=
  if key.length = 19 ∧ key.take 2 = REGION_RAFT_PREFIX_KEY ∧ key.getD 10 0 = RAFT_LOG_SUFFIX
  then some (read_u64_be ((key.drop 2).take 8), read_u64_be (key.drop 11))
  else none

/-- `make_region_meta_key(region_id, suffix)`. -/
def make_region_meta_key (region_id sfx : Nat) : List Nat :=
  REGION_META_PREFIX_KEY ++ u64_be region_id ++ [sfx]

/-- `decode_region_meta_key(key)`: checks exact length (11) and the
RegionMeta prefix, then reads region id (bytes 2..10) big-endian and
returns the raw last byte as the suffix. -/
def decode_region_meta_key (key : List Nat) : Option (Nat × Nat) :=
  if key.length = 11 then
    if key.take 2 = REGION_META_PREFIX_KEY then
      some (read_u64_be ((key.drop 2).take 8), key.getD (key.length - 1) 0)
    else none
  else none

/-- `region_meta_prefix(region_id)`. -/
def region_meta_prefix_key (region_id : Nat) : List Nat :=
  REGION_META_PREFIX_KEY ++ u64_be region_id

/-- `region_state_key(region_id)`. -/
def region_state_key (region_id : Nat) : List Nat :=
  make_region_meta_key region_id REGION_STATE_SUFFIX

/-- `validate_data_key(key)`: true iff the key starts with the Data prefix. -/
def validate_data_key (key : List Nat) : Bool :=
  DATA_PREFIX_KEY.isPrefixOf key

/-- `data_key(key)`: prepend the Data prefix byte. -/
def data_key (key : List Nat) : List Nat :=
  DATA_PREFIX_KEY ++ key

/-- `origin_key(key)`: asserts `validate_data_key` then strips the Data
prefix; `none` embeds the assertion failure. -/
def origin_key (key : List Nat) : Option (List Nat) :=
  if validate_data_key key then some (key.drop DATA_PREFIX_KEY.length) else none

/-- A peer of a region (external `kvproto` entity; only its presence matters). -/
structure Peer where
  id : Nat
  store_id : Nat
deriving DecidableEq

/-- A region (external `kvproto` entity): boundary keys and peer list. -/
structure Region where
  id : Nat
  start_key : List Nat
  end_key : List Nat
  peers : List Peer
deriving DecidableEq

/-- `enc_start_key(region)`: asserts the region has at least one peer,
then encodes the start key; `none` embeds the assertion failure. -/
def enc_start_key (r : Region) : Option (List Nat) :=
  if r.peers.isEmpty then none else some (data_key r.start_key)

/-- `data_end_key(region_end_key)`: the empty end key means "no upper
bound" and maps to `DATA_MAX_KEY`; any other end key is Data-prefixed. -/
def data_end_key (region_end_key : List Nat) : List Nat :=
  if region_end_key.isEmpty then DATA_MAX_KEY else data_key region_end_key

/-- `enc_end_key(region)`: asserts the region has at least one peer,
then encodes the end key; `none` embeds the assertion failure. -/
def enc_end_key (r : Region) : Option (List Nat) :=
  if r.peers.isEmpty then none else some (data_end_key r.end_key)

/-! ### Byte-encoding lemmas -/

lemma be_bytes_length (k : Nat) : ∀ n, (be_bytes k n).length = k := by
  induction k with
  | zero => intro n; rfl
  | succ k ih => intro n; simp [be_bytes, ih]

lemma u64_be_length (n : Nat) : (u64_be n).length = 8 := be_bytes_length 8 _

lemma foldl_be_bytes (k : Nat) :
    ∀ n acc, n < 256 ^ k →
      (be_bytes k n).foldl (fun acc b => acc * 256 + b) acc = acc * 256 ^ k + n := by
  induction k with
  | zero =>
    intro n acc h
    have hn : n = 0 := by simpa using Nat.lt_one_iff.mp h
    simp [be_bytes, hn]
  | succ k ih =>
    intro n acc h
    have hpos : 0 < 256 ^ k := Nat.pos_pow_of_pos k (by norm_num)
    simp only [be_bytes, List.foldl_cons]
    rw [ih (n % 256 ^ k) _ (Nat.mod_lt _ hpos)]
    have hdm : 256 ^ k * (n / 256 ^ k) + n % 256 ^ k = n := Nat.div_add_mod n (256 ^ k)
    have hp : (256 : Nat) ^ (k + 1) = 256 ^ k * 256 := pow_succ 256 k
    calc (acc * 256 + n / 256 ^ k) * 256 ^ k + n % 256 ^ k
      = acc * (256 ^ k * 256) + (256 ^ k * (n / 256 ^ k) + n % 256 ^ k) := by ring
    _ = acc * 256 ^ (k + 1) + n := by rw [hdm, hp]

lemma read_u64_be_u64_be (n : Nat) : read_u64_be (u64_be n) = n % 2 ^ 64 := by
  have h : n % 2 ^ 64 < 256 ^ 8 := by
    have : (256 : Nat) ^ 8 = 2 ^ 64 := by norm_num
    rw [this]
    exact Nat.mod_lt _ (by norm_num)
  have := foldl_be_bytes 8 (n % 2 ^ 64) 0 h
  simpa [read_u64_be, u64_be] using this

lemma read_u64_be_u64_be_of_lt {n : Nat} (h : n < 2 ^ 64) :
    read_u64_be (u64_be n) = n := by
  rw [read_u64_be_u64_be, Nat.mod_eq_of_lt h]

lemma be_bytes_lex (k : Nat) :
    ∀ a b, a < b → b < 256 ^ k →
      List.Lex (· < ·) (be_bytes k a) (be_bytes k b) := by
  induction k with
  | zero => intro a b hab hb; omega
  | succ k ih =>
    intro a b hab hb
    have hpos : 0 < 256 ^ k := Nat.pos_pow_of_pos k (by norm_num)
    have hq : a / 256 ^ k ≤ b / 256 ^ k := Nat.div_le_div_right (le_of_lt hab)
    simp only [be_bytes]
    rcases lt_or_eq_of_le hq with hlt | heq
    · exact List.Lex.rel hlt
    · rw [heq]
      apply List.Lex.cons
      apply ih
      · have ha := Nat.div_add_mod a (256 ^ k)
        have hb' := Nat.div_add_mod b (256 ^ k)
        rw [heq] at ha
        omega
      · exact Nat.mod_lt _ hpos

lemma u64_be_lex {a b : Nat} (hab : a < b) (hb : b < 2 ^ 64) :
    List.Lex (· < ·) (u64_be a) (u64_be b) := by
  have h256 : (256 : Nat) ^ 8 = 2 ^ 64 := by norm_num
  have ha' : a % 2 ^ 64 = a := Nat.mod_eq_of_lt (lt_trans hab hb)
  have hb' : b % 2 ^ 64 = b := Nat.mod_eq_of_lt hb
  unfold u64_be
  rw [ha', hb']
  exact be_bytes_lex 8 a b hab (h256 ▸ hb)

/-! ### Lexicographic order helper lemmas -/

lemma lex_append_of_lex {l₁ l₂ : List Nat} (s t : List Nat)
    (hlen : l₁.length = l₂.length) (h : List.Lex (· < ·) l₁ l₂) :
    List.Lex (· < ·) (l₁ ++ s) (l₂ ++ t) := by
  induction h with
  | nil => simp at hlen
  | rel hab => exact List.Lex.rel hab
  | cons h ih =>
    exact List.Lex.cons (ih (by simpa using hlen))

lemma lex_append_left_of_lex {l₁ l₂ : List Nat} (s : List Nat)
    (hlen : l₁.length = l₂.length) (h : List.Lex (· < ·) l₁ l₂) :
    List.Lex (· < ·) (l₁ ++ s) l₂ := by
  have := lex_append_of_lex s [] hlen h
  simpa using this

/-! ### Shape lemmas for composite keys -/

lemma raft_log_key_shape (id idx : Nat) :
    raft_log_key id idx =
      REGION_RAFT_PREFIX_KEY ++ (u64_be id ++ (RAFT_LOG_SUFFIX :: u64_be idx)) := by
  simp [raft_log_key, make_region_id_key, List.append_assoc]

lemma raft_log_key_length (id idx : Nat) : (raft_log_key id idx).length = 19 := by
  simp [raft_log_key_shape, REGION_RAFT_PREFIX_KEY, u64_be_length]

lemma raft_log_key_take_two (id idx : Nat) :
    (raft_log_key id idx).take 2 = REGION_RAFT_PREFIX_KEY := by
  rw [raft_log_key_shape]
  exact List.take_left' (by simp [REGION_RAFT_PREFIX_KEY])

lemma raft_log_key_region_bytes (id idx : Nat) :
    ((raft_log_key id idx).drop 2).take 8 = u64_be id := by
  rw [raft_log_key_shape,
    List.drop_left' (show REGION_RAFT_PREFIX_KEY.length = 2 by simp [REGION_RAFT_PREFIX_KEY])]
  exact List.take_left' (u64_be_length id)

lemma raft_log_key_suffix_byte (id idx : Nat) :
    (raft_log_key id idx).getD 10 0 = RAFT_LOG_SUFFIX := by
  have h : raft_log_key id idx =
      (REGION_RAFT_PREFIX_KEY ++ u64_be id) ++ (RAFT_LOG_SUFFIX :: u64_be idx) := by
    simp [raft_log_key, make_region_id_key, List.append_assoc]
  rw [h, List.getD_append_right _ _ _ _ (by simp [REGION_RAFT_PREFIX_KEY, u64_be_length])]
  simp [REGION_RAFT_PREFIX_KEY, u64_be_length]

lemma raft_log_key_index_bytes (id idx : Nat) :
    (raft_log_key id idx).drop 11 = u64_be idx := by
  have h : raft_log_key id idx =
      ((REGION_RAFT_PREFIX_KEY ++ u64_be id) ++ [RAFT_LOG_SUFFIX]) ++ u64_be idx := rfl
  rw [h]
  exact List.drop_left' (by simp [REGION_RAFT_PREFIX_KEY, u64_be_length])

lemma region_state_key_shape (id : Nat) :
    region_state_key id =
      REGION_META_PREFIX_KEY ++ (u64_be id ++ [REGION_STATE_SUFFIX]) := by
  simp [region_state_key, make_region_meta_key, List.append_assoc]

lemma region_state_key_length (id : Nat) : (region_state_key id).length = 11 := by
  simp [region_state_key_shape, REGION_META_PREFIX_KEY, u64_be_length]

lemma region_state_key_take_two (id : Nat) :
    (region_state_key id).take 2 = REGION_META_PREFIX_KEY := by
  rw [region_state_key_shape]
  exact List.take_left' (by simp [REGION_META_PREFIX_KEY])

lemma region_state_key_region_bytes (id : Nat) :
    ((region_state_key id).drop 2).take 8 = u64_be id := by
  rw [region_state_key_shape,
    List.drop_left' (show REGION_META_PREFIX_KEY.length = 2 by simp [REGION_META_PREFIX_KEY])]
  exact List.take_left' (u64_be_length id)

lemma region_state_key_last_byte (id : Nat) :
    (region_state_key id).getD 10 0 = REGION_STATE_SUFFIX := by
  have h : region_state_key id =
      (REGION_META_PREFIX_KEY ++ u64_be id) ++ [REGION_STATE_SUFFIX] := rfl
  rw [h, List.getD_append_right _ _ _ _ (by simp [REGION_META_PREFIX_KEY, u64_be_length])]
  simp [REGION_META_PREFIX_KEY, u64_be_length]

/-! ### Claim theorems -/

/-- C1: for every region id and log index (in `u64` range), decoding the
encoded raft log key returns the original pair, and `raft_log_index`
recovers the log index. -/
theorem raft_log_key_roundtrip (id idx : Nat) (hid : id < 2 ^ 64) (hidx : idx < 2 ^ 64) :
    decode_raft_log_key (raft_log_key id idx) = some (id, idx) ∧
    raft_log_index (raft_log_key id idx) = some idx := by
  constructor
  · unfold decode_raft_log_key
    rw [if_pos ⟨raft_log_key_length id idx, raft_log_key_take_two id idx,
      raft_log_key_suffix_byte id idx⟩]
    rw [raft_log_key_region_bytes, raft_log_key_index_bytes,
      read_u64_be_u64_be_of_lt hid, read_u64_be_u64_be_of_lt hidx]
  · unfold raft_log_index
    rw [if_pos (raft_log_key_length id idx), raft_log_key_index_bytes,
      read_u64_be_u64_be_of_lt hidx]

/-- Witness for C1 at region id 1024 and log index 5. -/
theorem raft_log_key_roundtrip_witness :
    decode_raft_log_key (raft_log_key 1024 5) = some (1024, 5) ∧
    raft_log_index (raft_log_key 1024 5) = some 5 :=
  raft_log_key_roundtrip 1024 5 (by norm_num) (by norm_num)

/-- C3: `data_end_key` maps the empty end key to `DATA_MAX_KEY` and any
other end key to `data_key` of it; no end key maps to the bare Data
prefix. -/
theorem data_end_key_spec (k : List Nat) :
    (k = [] → data_end_key k = DATA_MAX_KEY) ∧
    (k ≠ [] → data_end_key k = data_key k) ∧
    data_end_key k ≠ DATA_PREFIX_KEY := by
  refine ⟨fun h => by simp [data_end_key, h], fun h => by simp [data_end_key, h], ?_⟩
  rcases k with _ | ⟨b, rest⟩
  · simp [data_end_key, DATA_MAX_KEY, DATA_PREFIX_KEY, DATA_PREFIX_BYTE]
  · simp [data_end_key, data_key, DATA_PREFIX_KEY]

/-- Witness for C3 at the empty end key and at the end key `[2]`. -/
theorem data_end_key_spec_witness :
    data_end_key [] = DATA_MAX_KEY ∧ data_end_key [2] = data_key [2] :=
  ⟨(data_end_key_spec []).1 rfl, (data_end_key_spec [2]).2.1 (by simp)⟩

/-- C5: `decode_raft_log_key` fails exactly when the key is not 19 bytes
long, does not start with `[0x01, 0x02]`, or lacks the RaftLog suffix
`0x01` at offset 10; otherwise it returns the two big-endian fields. -/
theorem decode_raft_log_key_invalid_iff (key : List Nat) :
    (decode_raft_log_key key = none ↔
      ¬(key.length = 19 ∧ key.take 2 = [0x01, 0x02] ∧ key.getD 10 0 = 0x01)) ∧
    (key.length = 19 ∧ key.take 2 = [0x01, 0x02] ∧ key.getD 10 0 = 0x01 →
      decode_raft_log_key key =
        some (read_u64_be ((key.drop 2).take 8), read_u64_be (key.drop 11))) := by
  have hpk : REGION_RAFT_PREFIX_KEY = [0x01, 0x02] := rfl
  have hsf : RAFT_LOG_SUFFIX = 0x01 := rfl
  constructor
  · by_cases h : key.length = 19 ∧ key.take 2 = [0x01, 0x02] ∧ key.getD 10 0 = 0x01
    · simp [decode_raft_log_key, hpk, hsf, h]
    · simp only [decode_raft_log_key, hpk, hsf]
      rw [if_neg h]
      exact iff_of_true rfl h
  · intro h
    simp only [decode_raft_log_key, hpk, hsf]
    rw [if_pos h]

/-- Witness for C5: a concrete well-formed key decodes to its fields, and
a short key is rejected. -/
theorem decode_raft_log_key_invalid_iff_witness :
    decode_raft_log_key [1, 2, 0, 0, 0, 0, 0, 0, 0, 5, 1, 0, 0, 0, 0, 0, 0, 0, 9] =
      some (5, 9) ∧
    decode_raft_log_key [] = none := by
  constructor
  · exact ((decode_raft_log_key_invalid_iff
      [1, 2, 0, 0, 0, 0, 0, 0, 0, 5, 1, 0, 0, 0, 0, 0, 0, 0, 9]).2 (by decide)).trans
      (by decide)
  · exact (decode_raft_log_key_invalid_iff []).1.mpr (by decide)

/-- C6: `raft_log_index` fails exactly on keys whose length is not 19;
on any 19-byte key it returns the big-endian number in the last 8 bytes,
without validating prefix or suffix. -/
theorem raft_log_index_spec (key : List Nat) :
    (raft_log_index key = none ↔ key.length ≠ 19) ∧
    (key.length = 19 → raft_log_index key = some (read_u64_be (key.drop 11))) := by
  constructor
  · by_cases h : key.length = 19 <;> simp [raft_log_index, h]
  · intro h
    simp [raft_log_index, h]

/-- Witness for C6: a 19-byte key rejected by `decode_raft_log_key`
(wrong suffix byte) is still accepted by `raft_log_index`. -/
theorem raft_log_index_spec_witness :
    raft_log_index (raft_state_key 1 ++ u64_be 2) = some 2 ∧
    decode_raft_log_key (raft_state_key 1 ++ u64_be 2) = none := by
  constructor
  · exact ((raft_log_index_spec (raft_state_key 1 ++ u64_be 2)).2 (by decide)).trans
      (by decide)
  · decide

/-- C2: every local-namespace key is strictly below every data key under
unsigned lexicographic order, and every data key is strictly below
`MAX_KEY`. -/
theorem local_keys_below_data_keys (id idx : Nat) (u : List Nat) :
    keyLt store_ident_key (data_key u) ∧
    keyLt (region_raft_prefix_key id) (data_key u) ∧
    keyLt (raft_log_prefix_key id) (data_key u) ∧
    keyLt (raft_log_key id idx) (data_key u) ∧
    keyLt (raft_state_key id) (data_key u) ∧
    keyLt (apply_state_key id) (data_key u) ∧
    keyLt (region_meta_prefix_key id) (data_key u) ∧
    keyLt (region_state_key id) (data_key u) ∧
    keyLt (data_key u) MAX_KEY :=
  ⟨List.Lex.rel (by decide), List.Lex.rel (by decide), List.Lex.rel (by decide),
   List.Lex.rel (by decide), List.Lex.rel (by decide), List.Lex.rel (by decide),
   List.Lex.rel (by decide), List.Lex.rel (by decide), List.Lex.rel (by decide)⟩

lemma keyLt_u64_head {a b : Nat} (hab : a < b) (hb : b < 2 ^ 64) (x y : Nat) :
    keyLt (x :: y :: u64_be a) (x :: y :: u64_be b) :=
  List.Lex.cons (List.Lex.cons (u64_be_lex hab hb))

lemma keyLt_u64_tail {a b : Nat} (hab : a < b) (hb : b < 2 ^ 64) (x y : Nat)
    (s : List Nat) :
    keyLt (x :: y :: (u64_be a ++ s)) (x :: y :: u64_be b) :=
  List.Lex.cons (List.Lex.cons
    (lex_append_left_of_lex s (by simp [u64_be_length]) (u64_be_lex hab hb)))

/-- C4: key order preserves identifier order: for region ids `a < b`,
every RegionRaft- and RegionMeta-scoped key of `a` sorts strictly before
the corresponding prefix of `b`; for a fixed region, raft log keys sort
by log index. -/
theorem region_id_key_order (a b : Nat) (hab : a < b) (hb : b < 2 ^ 64) :
    keyLt (region_raft_prefix_key a) (region_raft_prefix_key b) ∧
    keyLt (raft_log_prefix_key a) (region_raft_prefix_key b) ∧
    (∀ i, keyLt (raft_log_key a i) (region_raft_prefix_key b)) ∧
    keyLt (raft_state_key a) (region_raft_prefix_key b) ∧
    keyLt (apply_state_key a) (region_raft_prefix_key b) ∧
    keyLt (region_meta_prefix_key a) (region_meta_prefix_key b) ∧
    keyLt (region_state_key a) (region_meta_prefix_key b) ∧
    (∀ id i j, i < j → j < 2 ^ 64 → keyLt (raft_log_key id i) (raft_log_key id j)) := by
  refine ⟨keyLt_u64_head hab hb 0x01 0x02,
    keyLt_u64_tail hab hb 0x01 0x02 [RAFT_LOG_SUFFIX], ?_,
    keyLt_u64_tail hab hb 0x01 0x02 [RAFT_STATE_SUFFIX],
    keyLt_u64_tail hab hb 0x01 0x02 [APPLY_STATE_SUFFIX],
    keyLt_u64_head hab hb 0x01 0x03,
    keyLt_u64_tail hab hb 0x01 0x03 [REGION_STATE_SUFFIX], ?_⟩
  · intro i
    rw [raft_log_key_shape a i]
    exact keyLt_u64_tail hab hb 0x01 0x02 (RAFT_LOG_SUFFIX :: u64_be i)
  · intro id i j hij hj
    rw [raft_log_key_shape id i, raft_log_key_shape id j]
    exact List.Lex.append_left _
      (List.Lex.append_left _ (List.Lex.cons (u64_be_lex hij hj)) (u64_be id)) _

/-- Witness for C4 at region ids 1 < 2 and log indices 7 < 8. -/
theorem region_id_key_order_witness :
    keyLt (region_raft_prefix_key 1) (region_raft_prefix_key 2) ∧
    keyLt (raft_log_key 1 7) (raft_log_key 1 8) :=
  ⟨(region_id_key_order 1 2 (by norm_num) (by norm_num)).1,
   (region_id_key_order 1 2 (by norm_num) (by norm_num)).2.2.2.2.2.2.2
     1 7 8 (by norm_num) (by norm_num)⟩

/-- C7: `decode_region_meta_key` fails exactly on wrong length or wrong
RegionMeta prefix; otherwise it returns the big-endian region id and the
raw last byte; composing with `region_state_key` round-trips. -/
theorem decode_region_meta_key_spec (key : List Nat) (id : Nat) (hid : id < 2 ^ 64) :
    (decode_region_meta_key key = none ↔
      ¬(key.length = 11 ∧ key.take 2 = [0x01, 0x03])) ∧
    (key.length = 11 ∧ key.take 2 = [0x01, 0x03] →
      decode_region_meta_key key =
        some (read_u64_be ((key.drop 2).take 8), key.getD (key.length - 1) 0)) ∧
    decode_region_meta_key (region_state_key id) = some (id, REGION_STATE_SUFFIX) := by
  have hpk : REGION_META_PREFIX_KEY = [0x01, 0x03] := rfl
  refine ⟨?_, ?_, ?_⟩
  · by_cases h1 : key.length = 11
    · by_cases h2 : key.take 2 = [0x01, 0x03]
      · simp only [decode_region_meta_key, hpk]
        rw [if_pos h1, if_pos h2]
        simp [h1, h2]
      · simp only [decode_region_meta_key, hpk]
        rw [if_pos h1, if_neg h2]
        exact iff_of_true rfl (by simp [h2])
    · simp only [decode_region_meta_key]
      rw [if_neg h1]
      exact iff_of_true rfl (by simp [h1])
  · rintro ⟨h1, h2⟩
    simp only [decode_region_meta_key, hpk]
    rw [if_pos h1, if_pos h2]
  · simp only [decode_region_meta_key]
    rw [if_pos (region_state_key_length id), if_pos (region_state_key_take_two id),
      region_state_key_region_bytes, read_u64_be_u64_be_of_lt hid]
    have hlast : (region_state_key id).getD ((region_state_key id).length - 1) 0 =
        REGION_STATE_SUFFIX := by
      rw [region_state_key_length]
      exact region_state_key_last_byte id
    rw [hlast]

/-- Witness for C7 at region id 1024 and the empty (rejected) key. -/
theorem decode_region_meta_key_spec_witness :
    decode_region_meta_key (region_state_key 1024) = some (1024, REGION_STATE_SUFFIX) ∧
    decode_region_meta_key [] = none :=
  ⟨(decode_region_meta_key_spec [] 1024 (by norm_num)).2.2,
   (decode_region_meta_key_spec [] 1024 (by norm_num)).1.mpr (by decide)⟩

/-- C8: `data_key` prepends exactly the Data prefix byte, the result
validates, and `origin_key` strips exactly that byte, inverting
`data_key`. -/
theorem data_key_origin_roundtrip (u : List Nat) :
    data_key u = DATA_PREFIX_BYTE :: u ∧
    validate_data_key (data_key u) = true ∧
    (∀ k, validate_data_key k = true → origin_key k = some (k.drop 1)) ∧
    origin_key (data_key u) = some u := by
  refine ⟨rfl, ?_, ?_, ?_⟩
  · simp [validate_data_key, data_key, DATA_PREFIX_KEY, List.isPrefixOf]
  · intro k hk
    simp [origin_key, hk, DATA_PREFIX_KEY]
  · simp [origin_key, validate_data_key, data_key, DATA_PREFIX_KEY, List.isPrefixOf]

/-- Witness for C8 on the user key "abc" and the data key `[0x7A, 5]`. -/
theorem data_key_origin_roundtrip_witness :
    validate_data_key (data_key [97, 98, 99]) = true ∧
    origin_key [0x7A, 5] = some [5] ∧
    origin_key (data_key [97, 98, 99]) = some [97, 98, 99] :=
  ⟨(data_key_origin_roundtrip [97, 98, 99]).2.1,
   ((data_key_origin_roundtrip []).2.2.1 [0x7A, 5] (by decide)).trans (by decide),
   (data_key_origin_roundtrip [97, 98, 99]).2.2.2⟩

/-- C9: the boundary encoders abort (assertion failure, embedded as
`none`) on a region with no peers; with at least one peer they return the
Data-prefixed start key and `data_end_key` of the end key. -/
theorem enc_key_spec (r : Region) :
    (r.peers = [] → enc_start_key r = none ∧ enc_end_key r = none) ∧
    (r.peers ≠ [] → enc_start_key r = some (data_key r.start_key) ∧
      enc_end_key r = some (data_end_key r.end_key)) := by
  constructor
  · intro h
    simp [enc_start_key, enc_end_key, h]
  · intro h
    rcases hp : r.peers with _ | ⟨p, ps⟩
    · exact absurd hp h
    · simp [enc_start_key, enc_end_key, hp]

/-- Witness for C9: a peerless region aborts; a one-peer region with
empty boundary keys encodes to `[0x7A]` and `[0x7B]`. -/
theorem enc_key_spec_witness :
    enc_start_key ⟨1, [], [], []⟩ = none ∧
    enc_end_key ⟨1, [], [], []⟩ = none ∧
    enc_start_key ⟨1, [], [], [⟨2, 3⟩]⟩ = some [0x7A] ∧
    enc_end_key ⟨1, [], [], [⟨2, 3⟩]⟩ = some [0x7B] := by
  have h1 := (enc_key_spec ⟨1, [], [], []⟩).1 rfl
  have h2 := (enc_key_spec ⟨1, [], [], [⟨2, 3⟩]⟩).2 (by simp)
  exact ⟨h1.1, h1.2, h2.1.trans (by decide), h2.2.trans (by decide)⟩

/-- C10: `data_key` is strictly monotone for unsigned lexicographic order
and injective. -/
theorem data_key_strict_mono (a b : List Nat) :
    (keyLt a b → keyLt (data_key a) (data_key b)) ∧
    (data_key a = data_key b → a = b) := by
  constructor
  · intro h
    exact List.Lex.cons h
  · intro h
    have h' : DATA_PREFIX_BYTE :: a = DATA_PREFIX_BYTE :: b := h
    exact (List.cons.inj h').2

/-- Witness for C10 at the user keys `[1]` and `[2]`. -/
theorem data_key_strict_mono_witness :
    keyLt (data_key [1]) (data_key [2]) ∧ ([1] : List Nat) = [1] :=
  ⟨(data_key_strict_mono [1] [2]).1 (by decide),
   (data_key_strict_mono [1] [1]).2 rfl⟩

end Keys
